import Mathlib

/-!
# Verification of the `mail` package (Go)

A shallow embedding of the mail-composition package: the base64 attachment
encoder with its 76-column line wrapper, the MIME message composer (`Send`),
the setters, the attachment loader, the SMTP authentication-context builder
(`plainAuth`), and the Message-ID / UUID generator.  Bytes are modelled as
`Nat` (with `< 256` side conditions where the arithmetic depends on it),
Go strings as Lean `String`, byte slices carrying binary data as `List Nat`,
and fallible operations as `Except`.  External collaborators (the filesystem,
`net/mail.ParseAddress`, the random source, the clock, the multipart
boundary generator) enter as explicit parameters.
-/

namespace Mail

/-! ## Base64 (Go `encoding/base64`, `StdEncoding`: standard alphabet, padded)

`b64Encode` embeds `base64.StdEncoding.Encode`: 3 input bytes become 4
alphabet bytes; a 1-byte tail becomes 2 alphabet bytes and `==`; a 2-byte
tail becomes 3 alphabet bytes and `=`.  `61` is the byte value of `'='`. -/

/-- Byte values of `ABCDEFGHIJKLMNOPQRSTUVWXYZabcdefghijklmnopqrstuvwxyz0123456789+/`,
the standard base64 alphabet. -/
def b64Alphabet : List Nat :=
  [65, 66, 67, 68, 69, 70, 71, 72, 73, 74, 75, 76, 77, 78, 79, 80, 81, 82,
   83, 84, 85, 86, 87, 88, 89, 90,
   97, 98, 99, 100, 101, 102, 103, 104, 105, 106, 107, 108, 109, 110, 111,
   112, 113, 114, 115, 116, 117, 118, 119, 120, 121, 122,
   48, 49, 50, 51, 52, 53, 54, 55, 56, 57, 43, 47]

/-- The alphabet byte encoding a 6-bit group. -/
def b64Char (n : Nat) : Nat := b64Alphabet.getD n 0

/-- `base64.StdEncoding.Encode` on a byte sequence. -/
def b64Encode : List Nat → List Nat
  | [] => []
  | [a] => [b64Char (a / 4), b64Char (a % 4 * 16), 61, 61]
  | [a, b] => [b64Char (a / 4), b64Char (a % 4 * 16 + b / 16), b64Char (b % 16 * 4), 61]
  | a :: b :: c :: rest =>
      b64Char (a / 4) :: b64Char (a % 4 * 16 + b / 16) :: b64Char (b % 16 * 4 + c / 64)
        :: b64Char (c % 64) :: b64Encode rest

/-- Position of a byte in the base64 alphabet (the 6-bit group it denotes). -/
def b64DecodeChar (c : Nat) : Option Nat := b64Alphabet.findIdx? (fun x => x == c)

/-- Standard base64 decoding: groups of four alphabet bytes, `=`-padding
allowed only in the final group.  This is the spec side of the round-trip
claim (the repository only encodes). -/
def b64Decode : List Nat → Option (List Nat)
  | [] => some []
  | c1 :: c2 :: c3 :: c4 :: rest =>
      (b64DecodeChar c1).bind fun x =>
      (b64DecodeChar c2).bind fun y =>
      if c3 = 61 ∧ c4 = 61 ∧ rest = [] then some [x * 4 + y / 16]
      else (b64DecodeChar c3).bind fun z =>
      if c4 = 61 ∧ rest = [] then some [x * 4 + y / 16, y % 16 * 16 + z / 4]
      else (b64DecodeChar c4).bind fun w =>
      (b64Decode rest).map fun tail =>
        (x * 4 + y / 16) :: (y % 16 * 16 + z / 4) :: (z % 4 * 64 + w) :: tail
  | _ => none

/-- `base64LineBreaker` (the 76-column wrapper): while more than 76 bytes
remain, emit a 76-byte chunk followed by CRLF; emit the remainder as-is. -/
def base64LineBreaker (s : List Nat) : List Nat :=
  if 76 < s.length then
    s.take 76 ++ 13 :: 10 :: base64LineBreaker (s.drop 76)
  else s
termination_by s.length
decreasing_by simp [List.length_drop]; omega

/-- Remove CR and LF bytes: the transport-safe-decode step that strips the
line breaks the wrapper inserted (base64 output itself contains neither). -/
def stripCRLF (s : List Nat) : List Nat :=
  s.filter fun c => !(c == 13) && !(c == 10)

/-- Split a byte stream at each (leftmost-first) CRLF pair: the lines of the
stream, final unterminated run included. -/
def splitCRLF : List Nat → List (List Nat)
  | [] => [[]]
  | [c] => [[c]]
  | c1 :: c2 :: rest =>
      if c1 = 13 ∧ c2 = 10 then [] :: splitCRLF rest
      else
        match splitCRLF (c2 :: rest) with
        | [] => [[c1]]
        | l :: ls => (c1 :: l) :: ls

/-! ### Base64 lemmas -/

theorem b64DecodeChar_b64Char (n : Nat) (h : n < 64) :
    b64DecodeChar (b64Char n) = some n := by
  have : ∀ m : Fin 64, b64DecodeChar (b64Char m.val) = some m.val := by decide
  exact this ⟨n, h⟩

theorem b64Char_ne_61 (n : Nat) (h : n < 64) : b64Char n ≠ 61 := by
  have : ∀ m : Fin 64, b64Char m.val ≠ 61 := by decide
  exact this ⟨n, h⟩

theorem b64Char_ne_cr_lf (n : Nat) : b64Char n ≠ 13 ∧ b64Char n ≠ 10 := by
  by_cases h : n < 64
  · have : ∀ m : Fin 64, b64Char m.val ≠ 13 ∧ b64Char m.val ≠ 10 := by decide
    exact this ⟨n, h⟩
  · have : b64Char n = 0 := by
      unfold b64Char
      apply List.getD_eq_default
      simp [b64Alphabet]
      omega
    simp [this]

theorem b64Encode_no_cr_lf (l : List Nat) :
    ∀ x ∈ b64Encode l, x ≠ 13 ∧ x ≠ 10 := by
  induction l using b64Encode.induct with
  | case1 => simp [b64Encode]
  | case2 a =>
      simp only [b64Encode, List.mem_cons, List.not_mem_nil]
      rintro x (rfl | rfl | rfl | rfl | h) <;>
        first
        | exact b64Char_ne_cr_lf _
        | exact ⟨by omega, by omega⟩
        | exact absurd h (by simp)
  | case3 a b =>
      simp only [b64Encode, List.mem_cons, List.not_mem_nil]
      rintro x (rfl | rfl | rfl | rfl | h) <;>
        first
        | exact b64Char_ne_cr_lf _
        | exact ⟨by omega, by omega⟩
        | exact absurd h (by simp)
  | case4 a b c rest ih =>
      simp only [b64Encode, List.mem_cons]
      rintro x (rfl | rfl | rfl | rfl | h)
      · exact b64Char_ne_cr_lf _
      · exact b64Char_ne_cr_lf _
      · exact b64Char_ne_cr_lf _
      · exact b64Char_ne_cr_lf _
      · exact ih x h

theorem b64Decode_b64Encode (l : List Nat) :
    (∀ b ∈ l, b < 256) → b64Decode (b64Encode l) = some l := by
  induction l using b64Encode.induct with
  | case1 => intro _; simp [b64Encode, b64Decode]
  | case2 a =>
      intro h
      have ha : a < 256 := h a (by simp)
      have e1 := b64DecodeChar_b64Char (a / 4) (by omega)
      have e2 := b64DecodeChar_b64Char (a % 4 * 16) (by omega)
      simp only [b64Encode, b64Decode, e1, e2, Option.some_bind]
      rw [if_pos (by simp)]
      have hval : a / 4 * 4 + a % 4 * 16 / 16 = a := by omega
      rw [hval]
  | case3 a b =>
      intro h
      have ha : a < 256 := h a (by simp)
      have hb : b < 256 := h b (by simp)
      have e1 := b64DecodeChar_b64Char (a / 4) (by omega)
      have e2 := b64DecodeChar_b64Char (a % 4 * 16 + b / 16) (by omega)
      have e3 := b64DecodeChar_b64Char (b % 16 * 4) (by omega)
      have n3 := b64Char_ne_61 (b % 16 * 4) (by omega)
      simp only [b64Encode, b64Decode, e1, e2, e3, Option.some_bind]
      rw [if_neg (by simp [n3]), if_pos (by simp)]
      have h1 : a / 4 * 4 + (a % 4 * 16 + b / 16) / 16 = a := by omega
      have h2 : (a % 4 * 16 + b / 16) % 16 * 16 + b % 16 * 4 / 4 = b := by omega
      rw [h1, h2]
  | case4 a b c rest ih =>
      intro h
      have ha : a < 256 := h a (by simp)
      have hb : b < 256 := h b (by simp)
      have hc : c < 256 := h c (by simp)
      have e1 := b64DecodeChar_b64Char (a / 4) (by omega)
      have e2 := b64DecodeChar_b64Char (a % 4 * 16 + b / 16) (by omega)
      have e3 := b64DecodeChar_b64Char (b % 16 * 4 + c / 64) (by omega)
      have e4 := b64DecodeChar_b64Char (c % 64) (by omega)
      have n3 := b64Char_ne_61 (b % 16 * 4 + c / 64) (by omega)
      have n4 := b64Char_ne_61 (c % 64) (by omega)
      have ihr : b64Decode (b64Encode rest) = some rest :=
        ih (fun x hx => h x (by simp [hx]))
      simp only [b64Encode, b64Decode, e1, e2, e3, e4, Option.some_bind]
      rw [if_neg (by simp [n3]), if_neg (by simp [n4]), ihr]
      simp only [Option.map_some']
      have h1 : a / 4 * 4 + (a % 4 * 16 + b / 16) / 16 = a := by omega
      have h2 : (a % 4 * 16 + b / 16) % 16 * 16 + (b % 16 * 4 + c / 64) / 4 = b := by omega
      have h3 : (b % 16 * 4 + c / 64) % 4 * 64 + c % 64 = c := by omega
      rw [h1, h2, h3]

theorem stripCRLF_lineBreaker (s : List Nat) :
    stripCRLF (base64LineBreaker s) = stripCRLF s := by
  induction s using base64LineBreaker.induct with
  | case1 s h ih =>
      rw [base64LineBreaker, if_pos h]
      unfold stripCRLF at ih ⊢
      rw [List.filter_append]
      have h1310 : List.filter (fun c => !(c == 13) && !(c == 10))
          (13 :: 10 :: base64LineBreaker (List.drop 76 s)) =
          List.filter (fun c => !(c == 13) && !(c == 10))
            (base64LineBreaker (List.drop 76 s)) := by
        simp [List.filter_cons]
      rw [h1310, ih, ← List.filter_append, List.take_append_drop]
  | case2 s h =>
      rw [base64LineBreaker, if_neg h]

theorem stripCRLF_of_no_cr_lf (s : List Nat) (h : ∀ x ∈ s, x ≠ 13 ∧ x ≠ 10) :
    stripCRLF s = s := by
  unfold stripCRLF
  apply List.filter_eq_self.mpr
  intro a ha
  have hx := h a ha
  simp [hx.1, hx.2]

theorem splitCRLF_ne_nil (l : List Nat) : splitCRLF l ≠ [] := by
  induction l using splitCRLF.induct with
  | case1 => simp [splitCRLF]
  | case2 c => simp [splitCRLF]
  | case3 c1 c2 rest h ih =>
      rw [splitCRLF, if_pos h]
      simp
  | case4 c1 c2 rest h hm ih => exact absurd hm ih
  | case5 c1 c2 rest h l ls hm ih =>
      rw [splitCRLF, if_neg h, hm]
      simp

theorem splitCRLF_length_le (l : List Nat) :
    ∀ line ∈ splitCRLF l, line.length ≤ l.length := by
  induction l using splitCRLF.induct with
  | case1 => simp [splitCRLF]
  | case2 c => simp [splitCRLF]
  | case3 c1 c2 rest h ih =>
      rw [splitCRLF, if_pos h]
      intro line hline
      rcases List.mem_cons.mp hline with rfl | hmem
      · simp
      · have := ih line hmem
        simp only [List.length_cons]
        omega
  | case4 c1 c2 rest h hm ih => exact absurd hm (splitCRLF_ne_nil _)
  | case5 c1 c2 rest h l ls hm ih =>
      rw [splitCRLF, if_neg h, hm]
      intro line hline
      rcases List.mem_cons.mp hline with rfl | hmem
      · have := ih l (by rw [hm]; exact List.mem_cons_self _ _)
        simp only [List.length_cons] at this ⊢
        omega
      · have := ih line (by rw [hm]; exact List.mem_cons_of_mem _ hmem)
        simp only [List.length_cons] at this ⊢
        omega

theorem splitCRLF_append (a b : List Nat) :
    splitCRLF (a ++ 13 :: 10 :: b) = splitCRLF a ++ splitCRLF b := by
  induction a using splitCRLF.induct with
  | case1 =>
      simp only [List.nil_append]
      rw [splitCRLF.eq_3, if_pos (by simp)]
      rfl
  | case2 c =>
      show splitCRLF (c :: 13 :: 10 :: b) = [[c]] ++ splitCRLF b
      rw [splitCRLF.eq_3, if_neg (by omega)]
      rw [show splitCRLF (13 :: 10 :: b) = [] :: splitCRLF b by
        rw [splitCRLF.eq_3, if_pos (by simp)]]
      rfl
  | case3 c1 c2 rest h ih =>
      simp only [List.cons_append] at ih ⊢
      rw [splitCRLF, if_pos h, ih]
      rw [splitCRLF, if_pos h]
      rfl
  | case4 c1 c2 rest h hm ih => exact absurd hm (splitCRLF_ne_nil _)
  | case5 c1 c2 rest h l ls hm ih =>
      simp only [List.cons_append] at ih ⊢
      rw [hm] at ih
      have hL : splitCRLF (c1 :: c2 :: (rest ++ 13 :: 10 :: b)) =
          (c1 :: l) :: (ls ++ splitCRLF b) := by
        rw [splitCRLF, if_neg h, ih]
        rfl
      have hR : splitCRLF (c1 :: c2 :: rest) = (c1 :: l) :: ls := by
        rw [splitCRLF, if_neg h, hm]
      rw [hL, hR]
      rfl

/-- Every line of the 76-column wrapper's output is at most 76 bytes long. -/
theorem lineBreaker_lines_le (s : List Nat) :
    ∀ line ∈ splitCRLF (base64LineBreaker s), line.length ≤ 76 := by
  induction s using base64LineBreaker.induct with
  | case1 s h ih =>
      rw [base64LineBreaker, if_pos h, splitCRLF_append]
      intro line hline
      rcases List.mem_append.mp hline with h1 | h2
      · have := splitCRLF_length_le _ line h1
        have hlen : (List.take 76 s).length ≤ 76 := by
          simp [List.length_take]
        omega
      · exact ih line h2
  | case2 s h =>
      rw [base64LineBreaker, if_neg h]
      intro line hline
      have := splitCRLF_length_le s line hline
      omega

/-! ## Claim C3 / C4 theorems -/

/-- **C3.** For every non-empty byte sequence, base64-encoding it with the
standard padded alphabet, applying the 76-column line wrapper, then removing
the inserted CRLF line breaks and base64-decoding, returns the original
byte sequence. -/
theorem C3_encode_wrap_strip_decode_roundtrip (l : List Nat) (hne : l ≠ [])
    (hb : ∀ b ∈ l, b < 256) :
    b64Decode (stripCRLF (base64LineBreaker (b64Encode l))) = some l := by
  rw [stripCRLF_lineBreaker, stripCRLF_of_no_cr_lf _ (b64Encode_no_cr_lf l),
    b64Decode_b64Encode l hb]

theorem C3_witness :
    (([72, 101, 108, 108, 111] : List Nat) ≠ [] ∧
      ∀ b ∈ ([72, 101, 108, 108, 111] : List Nat), b < 256) ∧
    b64Decode (stripCRLF (base64LineBreaker (b64Encode [72, 101, 108, 108, 111]))) =
      some [72, 101, 108, 108, 111] :=
  ⟨⟨by decide, by decide⟩,
    C3_encode_wrap_strip_decode_roundtrip [72, 101, 108, 108, 111] (by decide) (by decide)⟩

/-- **C4.** For every input byte sequence to the line wrapper, every line of
the output (each maximal run of bytes between CRLF breaks, and the final
unterminated run) is at most 76 characters long. -/
theorem C4_wrapped_lines_at_most_76 (s : List Nat) :
    ∀ line ∈ splitCRLF (base64LineBreaker s), line.length ≤ 76 :=
  lineBreaker_lines_le s

theorem C4_witness :
    ([65] ∈ splitCRLF (base64LineBreaker [65])) ∧ ([65] : List Nat).length ≤ 76 := by
  have hmem : [65] ∈ splitCRLF (base64LineBreaker ([65] : List Nat)) := by
    rw [base64LineBreaker]
    norm_num [splitCRLF]
  exact ⟨hmem, C4_wrapped_lines_at_most_76 [65] [65] hmem⟩

/-! ## Identifier generator (`generateUUID`, `generateMessageID`)

The 16 random bytes drawn by `crypto/rand` enter as an explicit argument
(the success path of `rand.Read`); the hostname enters as an argument
(`os.Hostname`).  Go's `%x` verb on a byte slice prints each byte as two
lowercase hex digits. -/

def hexDigits : List Char := "0123456789abcdef".data

def hexDigit (n : Nat) : Char := hexDigits.getD n '0'

/-- One byte under `%x`: two lowercase hex digits. -/
def hexByte (b : Nat) : List Char := [hexDigit (b / 16 % 16), hexDigit (b % 16)]

def hexBytes : List Nat → List Char
  | [] => []
  | b :: t => hexByte b ++ hexBytes t

/-- `uuid[6] = (uuid[6] & 0x0f) | 0x40` (version 4). -/
def setVersion (b : Nat) : Nat := b &&& 0x0f ||| 0x40

/-- `uuid[8] = (uuid[8] & 0xbf) | 0x80` (variant bits `10`). -/
def setVariant (b : Nat) : Nat := b &&& 0xbf ||| 0x80

/-- The two in-place byte updates of `generateUUID`. -/
def uuidBytes (bs : List Nat) : List Nat :=
  let u1 := bs.set 6 (setVersion (bs.getD 6 0))
  u1.set 8 (setVariant (u1.getD 8 0))

/-- `generateUUID` on a successful 16-byte draw: force version and variant,
then format `"%x-%x-%x-%x-%x"` over slices `[0:4] [4:6] [6:8] [8:10] [10:]`. -/
def generateUUID (bs : List Nat) : List Char :=
  let u := uuidBytes bs
  hexBytes (u.take 4) ++ '-' :: hexBytes ((u.drop 4).take 2) ++ '-' ::
    hexBytes ((u.drop 6).take 2) ++ '-' :: hexBytes ((u.drop 8).take 2) ++ '-' ::
    hexBytes (u.drop 10)

/-- `generateMessageID` (success path of the UUID draw):
`fmt.Sprintf("<%s@%s>", uuid, hostname)`. -/
def generateMessageID (hostname : List Char) (bs : List Nat) : List Char :=
  '<' :: generateUUID bs ++ '@' :: hostname ++ ['>']

theorem hexDigit_mem (n : Nat) : hexDigit n ∈ hexDigits := by
  by_cases h : n < 16
  · have key : ∀ m : Fin 16, hexDigit m.val ∈ hexDigits := by decide
    exact key ⟨n, h⟩
  · unfold hexDigit
    rw [List.getD_eq_default]
    · decide
    · have hlen : hexDigits.length = 16 := rfl
      omega

theorem hexBytes_subset (l : List Nat) : ∀ ch ∈ hexBytes l, ch ∈ hexDigits := by
  induction l with
  | nil => simp [hexBytes]
  | cons b t ih =>
      intro ch hch
      rw [hexBytes] at hch
      rcases List.mem_append.mp hch with h1 | h2
      · rcases List.mem_cons.mp h1 with rfl | h1'
        · exact hexDigit_mem _
        · rcases List.mem_cons.mp h1' with rfl | h1''
          · exact hexDigit_mem _
          · exact absurd h1'' (by simp)
      · exact ih ch h2

theorem setVersion_nibble (b : Nat) : setVersion b / 16 % 16 = 4 := by
  have h : b &&& 15 < 16 := Nat.lt_succ_of_le Nat.and_le_right
  have key : ∀ x : Fin 16, (x.val ||| 64) / 16 % 16 = 4 := by decide
  exact key ⟨b &&& 15, h⟩

set_option maxRecDepth 8000 in
theorem setVariant_nibble (b : Nat) :
    setVariant b / 16 % 16 = 8 ∨ setVariant b / 16 % 16 = 9 ∨
      setVariant b / 16 % 16 = 10 ∨ setVariant b / 16 % 16 = 11 := by
  have h1 : b &&& 191 = b % 256 &&& 191 := by
    have e : (255 : Nat) &&& 191 = 191 := by decide
    rw [← Nat.and_pow_two_sub_one_eq_mod b 8]
    norm_num [Nat.and_assoc, e]
  have h2 : b % 256 < 256 := Nat.mod_lt _ (by norm_num)
  have key : ∀ x : Fin 256,
      (x.val &&& 191 ||| 128) / 16 % 16 = 8 ∨ (x.val &&& 191 ||| 128) / 16 % 16 = 9 ∨
      (x.val &&& 191 ||| 128) / 16 % 16 = 10 ∨ (x.val &&& 191 ||| 128) / 16 % 16 = 11 := by
    decide
  have hb := key ⟨b % 256, h2⟩
  show (b &&& 191 ||| 128) / 16 % 16 = 8 ∨ (b &&& 191 ||| 128) / 16 % 16 = 9 ∨
    (b &&& 191 ||| 128) / 16 % 16 = 10 ∨ (b &&& 191 ||| 128) / 16 % 16 = 11
  rw [h1]
  exact hb

set_option maxRecDepth 4000 in
/-- **C7.** Every identifier produced by the UUID generator from a successful
16-byte random draw is five hyphen-separated hexadecimal groups of
8-4-4-4-12 digits, with the version nibble of byte 6 forced to `4` and the
two high bits of byte 8 forced to `10`; and the Message-ID embeds it as
`<uuid@hostname>`. -/
theorem C7_uuid_format (host : List Char)
    (b0 b1 b2 b3 b4 b5 b6 b7 b8 b9 b10 b11 b12 b13 b14 b15 : Nat) :
    ∃ g1 g2 g3 g4 g5 : List Char,
      generateUUID [b0, b1, b2, b3, b4, b5, b6, b7, b8, b9, b10, b11, b12, b13, b14, b15] =
        g1 ++ '-' :: g2 ++ '-' :: g3 ++ '-' :: g4 ++ '-' :: g5 ∧
      g1.length = 8 ∧ g2.length = 4 ∧ g3.length = 4 ∧ g4.length = 4 ∧ g5.length = 12 ∧
      (∀ ch ∈ g1 ++ g2 ++ g3 ++ g4 ++ g5, ch ∈ hexDigits) ∧
      g3.head? = some '4' ∧
      (∃ c, g4.head? = some c ∧ c ∈ ['8', '9', 'a', 'b']) ∧
      generateMessageID host [b0, b1, b2, b3, b4, b5, b6, b7, b8, b9, b10, b11, b12, b13, b14, b15] =
        '<' :: generateUUID [b0, b1, b2, b3, b4, b5, b6, b7, b8, b9, b10, b11, b12, b13, b14, b15] ++
          '@' :: host ++ ['>'] := by
  refine ⟨hexBytes [b0, b1, b2, b3], hexBytes [b4, b5], hexBytes [setVersion b6, b7],
    hexBytes [setVariant b8, b9], hexBytes [b10, b11, b12, b13, b14, b15],
    rfl, rfl, rfl, rfl, rfl, rfl, ?_, ?_, ?_, rfl⟩
  · intro ch hch
    simp only [List.mem_append] at hch
    rcases hch with ((((h | h) | h) | h) | h) <;> exact hexBytes_subset _ ch h
  · show some (hexDigit (setVersion b6 / 16 % 16)) = some '4'
    rw [setVersion_nibble]
    rfl
  · refine ⟨hexDigit (setVariant b8 / 16 % 16), rfl, ?_⟩
    rcases setVariant_nibble b8 with h | h | h | h <;> rw [h] <;> decide

/-! ## Transport options and authentication context (`mail.go`)

`plainAuth` builds the `smtp.PlainAuth` context; `Auth` records the four
arguments Go passes to `smtp.PlainAuth("", username, password, host)`. -/

structure Options where
  Host : String
  Port : String
  Username : String
  Password : String
  deriving DecidableEq

inductive MailError where
  | ErrEmptyFrom
  | ErrEmptyTo
  | ErrEmptySubject
  | ErrEmptyBody
  | ErrEmptyAttachment
  | ErrFileNotFound
  | ErrEmptyHost
  | ErrEmptyPort
  | ErrEmptyUsername
  | ErrEmptyPassword
  | ParseAddressError (addr : String)
  deriving DecidableEq

structure Auth where
  identity : String
  username : String
  password : String
  host : String
  deriving DecidableEq

/-- `(m *Options) plainAuth()`: reject empty username, then empty password,
then empty host; otherwise build the PLAIN authentication context.
(The `Port` field is never examined here.) -/
def Options.plainAuth (o : Options) : Except MailError Auth :=
  if o.Username = "" then .error .ErrEmptyUsername
  else if o.Password = "" then .error .ErrEmptyPassword
  else if o.Host = "" then .error .ErrEmptyHost
  else .ok ⟨"", o.Username, o.Password, o.Host⟩

/-! ## Mime classification

`ext` embeds `filepath.Ext` (suffix of the path from its final dot,
scanning right-to-left, stopping at a path separator).  `TypeByExtension`
models the external collaborator `mime.TypeByExtension` by its builtin
type table (no system mime.types assumed); unknown extensions map to the
empty string.  `getMimeType` is the repository's own classifier (switch
over extensions with an `application/octet-stream` fallback). -/

def extGo : List Char → List Char → String
  | [], _ => ""
  | c :: rest, acc =>
      if c = '/' then ""
      else if c = '.' then String.mk (c :: acc)
      else extGo rest (c :: acc)

def ext (path : String) : String := extGo path.data.reverse []

def builtinTypes : List (String × String) :=
  [(".avif", "image/avif"), (".css", "text/css; charset=utf-8"),
   (".gif", "image/gif"), (".htm", "text/html; charset=utf-8"),
   (".html", "text/html; charset=utf-8"), (".jpeg", "image/jpeg"),
   (".jpg", "image/jpeg"), (".js", "text/javascript; charset=utf-8"),
   (".json", "application/json"), (".mjs", "text/javascript; charset=utf-8"),
   (".pdf", "application/pdf"), (".png", "image/png"),
   (".svg", "image/svg+xml"), (".wasm", "application/wasm"),
   (".webp", "image/webp"), (".xml", "text/xml; charset=utf-8")]

def TypeByExtension (e : String) : String := (builtinTypes.lookup e).getD ""

def getMimeType (filename : String) : String :=
  let e := ext filename
  if e = ".jpg" ∨ e = ".jpeg" then "image/jpeg"
  else if e = ".png" then "image/png"
  else if e = ".pdf" then "application/pdf"
  else if e = ".doc" ∨ e = ".docx" then "application/msword"
  else if e = ".xls" ∨ e = ".xlsx" then "application/vnd.ms-excel"
  else if e = ".ppt" ∨ e = ".pptx" then "application/vnd.ms-powerpoint"
  else if e = ".zip" then "application/zip"
  else if e = ".rar" then "application/x-rar-compressed"
  else if e = ".7z" then "application/x-7z-compressed"
  else if e = ".txt" then "text/plain"
  else if e = ".html" ∨ e = ".htm" then "text/html"
  else "application/octet-stream"

/-! ## The message composer (final variant: `Attachment`, `Message`, setters,
`SetAttachment`, `Send`)

Go `string` fields are Lean `String`; the `[]byte` bodies are `String`
at the wire level (`len(b) > 0` becomes `≠ ""`); attachment bytes are
`List Nat`.  `from` is spelled `from_` and `to` is spelled `to_` (both are reserved
tokens in Lean). -/

structure Attachment where
  Name : String
  Data : List Nat
  ContentType : String
  deriving DecidableEq

structure Message where
  Options : Options
  from_ : String
  to_ : List String
  subject : String
  cc : List String
  bcc : List String
  header : String
  plainText : String
  html : String
  attachment : List Attachment
  deriving DecidableEq

def Message.SetFrom (m : Message) (from_ : String) : Message := { m with from_ := from_ }

def Message.SetTo (m : Message) (to_ : List String) : Message := { m with to_ := to_ }

def Message.SetSubject (m : Message) (subject : String) : Message := { m with subject := subject }

def Message.SetCc (m : Message) (cc : List String) : Message := { m with cc := cc }

def Message.SetBcc (m : Message) (bcc : List String) : Message := { m with bcc := bcc }

def Message.SetBodyPlainText (m : Message) (content : String) : Message :=
  { m with plainText := content }

def Message.SetBodyHTML (m : Message) (content : String) : Message :=
  { m with html := content }

/-- `SetAttachment`: reject an empty path, then open the file (the
filesystem collaborator `fs` models `os.Open`/`Stat`/`Read`, returning
`fileInfo.Name()` — the base name — and the file's bytes, or `none` when
the path cannot be opened), classify by `mime.TypeByExtension` of the
path's extension, and append the attachment. -/
def Message.SetAttachment (fs : String → Option (String × List Nat)) (m : Message)
    (filename : String) : Except MailError Message :=
  if filename = "" then .error .ErrEmptyAttachment
  else
    match fs filename with
    | none => .error .ErrFileNotFound
    | some (name, data) =>
        .ok { m with attachment :=
          m.attachment ++ [⟨name, data, TypeByExtension (ext filename)⟩] }

/-! ## Body and header construction inside `Send`

`createPart` is the byte stream `multipart.Writer.CreatePart` emits before a
part's payload: the dash-boundary line (preceded by CRLF for every part
after the first), the header lines in Go's sorted-key order, and a blank
line.  `closingBoundary` is what `Writer.Close` appends.  The writer's
random boundary enters as a parameter. -/

def createPart (first : Bool) (boundary : String) (headers : List (String × String)) : String :=
  (if first then "--" ++ boundary ++ "\r\n" else "\r\n--" ++ boundary ++ "\r\n") ++
    String.join (headers.map fun kv => kv.1 ++ ": " ++ kv.2 ++ "\r\n") ++ "\r\n"

def closingBoundary (boundary : String) : String := "\r\n--" ++ boundary ++ "--\r\n"

/-- Attachment bytes after base64 + line wrapping, reread as characters of
the body stream. -/
def asciiString (l : List Nat) : String := String.mk (l.map Char.ofNat)

/-- The attachment parts of the body, in append order (`first` says whether
the next part is the first part the writer creates).  Part headers appear
in Go's sorted-key order: Content-Disposition, Content-Transfer-Encoding,
Content-Type. -/
def attachmentParts (first : Bool) (boundary : String) : List Attachment → String
  | [] => ""
  | a :: rest =>
      createPart first boundary
        [("Content-Disposition", "attachment; filename=\"" ++ a.Name ++ "\""),
         ("Content-Transfer-Encoding", "base64"),
         ("Content-Type", a.ContentType)] ++
      asciiString (base64LineBreaker (b64Encode a.Data)) ++
      attachmentParts false boundary rest

/-- The whole body buffer `Send` builds: optional plain-text part, optional
HTML part, the attachment parts, and the closing boundary delimiter
(`writer.Close()` always writes it). -/
def sendBody (m : Message) (boundary : String) : String :=
  (if m.plainText ≠ "" then
      createPart true boundary [("Content-Type", "text/plain; charset=UTF-8")] ++ m.plainText
    else "") ++
  (if m.html ≠ "" then
      createPart (m.plainText == "") boundary [("Content-Type", "text/html; charset=UTF-8")] ++
        m.html
    else "") ++
  attachmentParts (m.plainText == "" && m.html == "") boundary m.attachment ++
  closingBoundary boundary

/-- The `headContentType` value `Send` computes while writing the parts:
plain text sets `text/plain`; HTML sets `text/html`, overridden to
`multipart/alternative` when plain text is also present; any attachment
overrides everything to `multipart/mixed`. -/
def headContentType (m : Message) (boundary : String) : String :=
  let ct1 := if m.plainText ≠ "" then "text/plain; charset=UTF-8" else ""
  let ct2 :=
    if m.html ≠ "" then
      if m.plainText ≠ "" then "multipart/alternative; boundary=\"" ++ boundary ++ "\""
      else "text/html; charset=UTF-8"
    else ct1
  if m.attachment ≠ [] then "multipart/mixed; boundary=\"" ++ boundary ++ "\"" else ct2

/-- The header block `Send` assembles (`fromStr` is `from.String()` from the
address parser; `messageID` and `dateStr` come from the identifier
generator and the clock). -/
def sendHeader (m : Message) (fromStr messageID dateStr contentType : String) : String :=
  "From: " ++ fromStr ++ "\r\n" ++
  "To: " ++ String.intercalate "," m.to_ ++ "\r\n" ++
  "Subject: " ++ m.subject ++ "\r\n" ++
  "Message-ID: " ++ messageID ++ "\r\n" ++
  "Date: " ++ dateStr ++ "\r\n" ++
  "MIME-Version: 1.0\r\n" ++
  "Content-Type: " ++ contentType ++ "\r\n" ++
  (if m.cc ≠ [] then "Cc: " ++ String.intercalate "," m.cc ++ "\r\n" else "") ++
  (if m.bcc ≠ [] then "Bcc: " ++ String.intercalate "," m.bcc ++ "\r\n" else "")

/-- First entry of the `to` list the address parser rejects, if any
(`Send` parses every recipient and fails on the first malformed one). -/
def firstBadAddress (parseAddr : String → Option String) : List String → Option String
  | [] => none
  | t :: rest => if (parseAddr t).isNone then some t else firstBadAddress parseAddr rest

/-- The arguments `Send` hands to `smtp.SendMail` when it reaches the
transport: dial address, authentication context, envelope from/to, and the
full message bytes.  An `Except.error` result models `Send` returning
before this call is attempted. -/
structure TransportCall where
  addr : String
  auth : Auth
  from_ : String
  to_ : List String
  data : String
  deriving DecidableEq

/-- `(m *Message) Send()` of the final composer variant.  External inputs:
`parseAddr` models `net/mail.ParseAddress` (returning the parsed address's
canonical `String()` form), `messageID` the generated Message-ID, `dateStr`
the formatted current time, `boundary` the multipart writer's random
boundary. -/
def Message.Send (parseAddr : String → Option String)
    (messageID dateStr boundary : String) (m : Message) :
    Except MailError TransportCall :=
  if m.from_ = "" then .error .ErrEmptyFrom
  else if m.to_ = [] then .error .ErrEmptyTo
  else if m.subject = "" then .error .ErrEmptySubject
  else
    match parseAddr m.from_ with
    | none => .error (.ParseAddressError m.from_)
    | some fromStr =>
        match firstBadAddress parseAddr m.to_ with
        | some t => .error (.ParseAddressError t)
        | none =>
            let body := sendBody m boundary
            let message :=
              sendHeader m fromStr messageID dateStr (headContentType m boundary) ++
                "\r\n" ++ body
            match m.Options.plainAuth with
            | .error e => .error e
            | .ok auth =>
                .ok ⟨m.Options.Host ++ ":" ++ m.Options.Port, auth, m.from_, m.to_, message⟩

/-! ## Claims about `plainAuth`, the setters, and `SetAttachment` -/

/-- An `Options` value with every credential set but an empty `Port`. -/
def optionsEmptyPort : Options := ⟨"smtp.example.com", "", "user", "secret"⟩

/-- An `Options` value with an empty `Username`. -/
def optionsNoUser : Options := ⟨"smtp.example.com", "25", "", "secret"⟩

/-- **C5 (counterexample).** The claim says authentication-context
construction fails when the port is empty; in fact `plainAuth` never
examines `Port`: with host, username and password set but `Port = ""`,
construction succeeds. -/
theorem C5_counterexample :
    optionsEmptyPort.Port = "" ∧
      optionsEmptyPort.plainAuth = .ok ⟨"", "user", "secret", "smtp.example.com"⟩ :=
  ⟨rfl, rfl⟩

/-- **C5 (amended).** Constructing the authentication context fails with the
corresponding Empty error when username, password, or host is the empty
string (tested in that order), and these are the only failure conditions —
`Port` is never validated.  The check happens at `plainAuth` time; building
an `Options` value performs no validation (it is a plain record). -/
theorem C5_plainAuth_failure_conditions (o : Options) :
    (o.Username = "" → o.plainAuth = .error .ErrEmptyUsername) ∧
    (o.Username ≠ "" → o.Password = "" → o.plainAuth = .error .ErrEmptyPassword) ∧
    (o.Username ≠ "" → o.Password ≠ "" → o.Host = "" →
      o.plainAuth = .error .ErrEmptyHost) ∧
    (o.Username ≠ "" → o.Password ≠ "" → o.Host ≠ "" →
      o.plainAuth = .ok ⟨"", o.Username, o.Password, o.Host⟩) := by
  refine ⟨?_, ?_, ?_, ?_⟩ <;> intros <;> simp_all [Options.plainAuth]

theorem C5_witness :
    optionsNoUser.plainAuth = .error .ErrEmptyUsername ∧
      optionsEmptyPort.plainAuth = .ok ⟨"", "user", "secret", "smtp.example.com"⟩ :=
  ⟨(C5_plainAuth_failure_conditions optionsNoUser).1 rfl,
    (C5_plainAuth_failure_conditions optionsEmptyPort).2.2.2 (by decide) (by decide) (by decide)⟩

/-- **C9.** Every setter among `SetFrom`, `SetTo`, `SetSubject`, `SetCc`,
`SetBcc`, `SetBodyPlainText`, and `SetBodyHTML` always succeeds (each is a
total function with no error result), overwrites only its own field, and
leaves every other field of the Message unchanged. -/
theorem C9_setters_frame (m : Message) (s : String) (l : List String) :
    ((m.SetFrom s).from_ = s ∧ (m.SetFrom s).Options = m.Options ∧
      (m.SetFrom s).to_ = m.to_ ∧ (m.SetFrom s).subject = m.subject ∧
      (m.SetFrom s).cc = m.cc ∧ (m.SetFrom s).bcc = m.bcc ∧
      (m.SetFrom s).header = m.header ∧ (m.SetFrom s).plainText = m.plainText ∧
      (m.SetFrom s).html = m.html ∧ (m.SetFrom s).attachment = m.attachment) ∧
    ((m.SetTo l).to_ = l ∧ (m.SetTo l).Options = m.Options ∧
      (m.SetTo l).from_ = m.from_ ∧ (m.SetTo l).subject = m.subject ∧
      (m.SetTo l).cc = m.cc ∧ (m.SetTo l).bcc = m.bcc ∧
      (m.SetTo l).header = m.header ∧ (m.SetTo l).plainText = m.plainText ∧
      (m.SetTo l).html = m.html ∧ (m.SetTo l).attachment = m.attachment) ∧
    ((m.SetSubject s).subject = s ∧ (m.SetSubject s).Options = m.Options ∧
      (m.SetSubject s).from_ = m.from_ ∧ (m.SetSubject s).to_ = m.to_ ∧
      (m.SetSubject s).cc = m.cc ∧ (m.SetSubject s).bcc = m.bcc ∧
      (m.SetSubject s).header = m.header ∧ (m.SetSubject s).plainText = m.plainText ∧
      (m.SetSubject s).html = m.html ∧ (m.SetSubject s).attachment = m.attachment) ∧
    ((m.SetCc l).cc = l ∧ (m.SetCc l).Options = m.Options ∧
      (m.SetCc l).from_ = m.from_ ∧ (m.SetCc l).to_ = m.to_ ∧
      (m.SetCc l).subject = m.subject ∧ (m.SetCc l).bcc = m.bcc ∧
      (m.SetCc l).header = m.header ∧ (m.SetCc l).plainText = m.plainText ∧
      (m.SetCc l).html = m.html ∧ (m.SetCc l).attachment = m.attachment) ∧
    ((m.SetBcc l).bcc = l ∧ (m.SetBcc l).Options = m.Options ∧
      (m.SetBcc l).from_ = m.from_ ∧ (m.SetBcc l).to_ = m.to_ ∧
      (m.SetBcc l).subject = m.subject ∧ (m.SetBcc l).cc = m.cc ∧
      (m.SetBcc l).header = m.header ∧ (m.SetBcc l).plainText = m.plainText ∧
      (m.SetBcc l).html = m.html ∧ (m.SetBcc l).attachment = m.attachment) ∧
    ((m.SetBodyPlainText s).plainText = s ∧ (m.SetBodyPlainText s).Options = m.Options ∧
      (m.SetBodyPlainText s).from_ = m.from_ ∧ (m.SetBodyPlainText s).to_ = m.to_ ∧
      (m.SetBodyPlainText s).subject = m.subject ∧ (m.SetBodyPlainText s).cc = m.cc ∧
      (m.SetBodyPlainText s).bcc = m.bcc ∧ (m.SetBodyPlainText s).header = m.header ∧
      (m.SetBodyPlainText s).html = m.html ∧
      (m.SetBodyPlainText s).attachment = m.attachment) ∧
    ((m.SetBodyHTML s).html = s ∧ (m.SetBodyHTML s).Options = m.Options ∧
      (m.SetBodyHTML s).from_ = m.from_ ∧ (m.SetBodyHTML s).to_ = m.to_ ∧
      (m.SetBodyHTML s).subject = m.subject ∧ (m.SetBodyHTML s).cc = m.cc ∧
      (m.SetBodyHTML s).bcc = m.bcc ∧ (m.SetBodyHTML s).header = m.header ∧
      (m.SetBodyHTML s).plainText = m.plainText ∧
      (m.SetBodyHTML s).attachment = m.attachment) := by
  simp [Message.SetFrom, Message.SetTo, Message.SetSubject, Message.SetCc,
    Message.SetBcc, Message.SetBodyPlainText, Message.SetBodyHTML]

/-- **C8.** `SetAttachment` returns the EmptyAttachment error on an empty
path, the FileNotFound error when the path cannot be opened, and on success
appends exactly one Attachment holding the file's base name, its bytes, and
its classified content type. -/
theorem C8_setAttachment (fs : String → Option (String × List Nat)) (m : Message)
    (p : String) :
    (Message.SetAttachment fs m "" = .error .ErrEmptyAttachment) ∧
    (p ≠ "" → fs p = none → Message.SetAttachment fs m p = .error .ErrFileNotFound) ∧
    (∀ name data, p ≠ "" → fs p = some (name, data) →
      Message.SetAttachment fs m p =
        .ok { m with attachment :=
          m.attachment ++ [⟨name, data, TypeByExtension (ext p)⟩] }) := by
  refine ⟨rfl, ?_, ?_⟩
  · intro hp hfs
    simp [Message.SetAttachment, hp, hfs]
  · intro name data hp hfs
    simp [Message.SetAttachment, hp, hfs]

/-- A Message with every field empty. -/
def emptyMessage : Message := ⟨⟨"", "", "", ""⟩, "", [], "", [], [], "", "", "", []⟩

/-- A filesystem with exactly one file, `docs/report.pdf`. -/
def fsReport : String → Option (String × List Nat) :=
  fun p => if p = "docs/report.pdf" then some ("report.pdf", [37, 80, 68, 70]) else none

theorem C8_witness :
    ("docs/report.pdf" ≠ "" ∧ fsReport "docs/report.pdf" = some ("report.pdf", [37, 80, 68, 70]) ∧
      fsReport "missing" = none ∧ ("missing" : String) ≠ "") ∧
    Message.SetAttachment fsReport emptyMessage "missing" = .error .ErrFileNotFound ∧
    Message.SetAttachment fsReport emptyMessage "docs/report.pdf" =
      .ok { emptyMessage with attachment :=
        emptyMessage.attachment ++
          [⟨"report.pdf", [37, 80, 68, 70], TypeByExtension (ext "docs/report.pdf")⟩] } :=
  ⟨⟨by decide, by decide, by decide, by decide⟩,
    (C8_setAttachment fsReport emptyMessage "missing").2.1 (by decide) (by decide),
    (C8_setAttachment fsReport emptyMessage "docs/report.pdf").2.2 "report.pdf"
      [37, 80, 68, 70] (by decide) (by decide)⟩

/-- A filesystem with exactly one file, `file.xyz` (an extension no
classifier recognizes). -/
def fsXyz : String → Option (String × List Nat) :=
  fun p => if p = "file.xyz" then some ("file.xyz", [104, 105]) else none

/-- **C6 (counterexample).** `.xyz` is not a recognized extension, yet the
Attachment stored by `SetAttachment` for `file.xyz` carries content type
`""` — `mime.TypeByExtension`'s miss result — not
`application/octet-stream`. -/
theorem C6_counterexample :
    builtinTypes.lookup (ext "file.xyz") = none ∧
    Message.SetAttachment fsXyz emptyMessage "file.xyz" =
      .ok { emptyMessage with attachment := [⟨"file.xyz", [104, 105], ""⟩] } ∧
    ("" : String) ≠ "application/octet-stream" :=
  ⟨by decide, rfl, by decide⟩

/-- **C6 (amended).** For every filename whose extension is not in
`mime.TypeByExtension`'s builtin table, the content-type string stored on
the Attachment created by `SetAttachment` is the empty string (the
collaborator's miss result); the repository's own classifier `getMimeType`
— which the final `SetAttachment` does not call — is the function that
falls back to `application/octet-stream` on unrecognized extensions. -/
theorem C6_unrecognized_extension (p : String) (fs : String → Option (String × List Nat))
    (m : Message) (name : String) (data : List Nat) :
    (builtinTypes.lookup (ext p) = none → p ≠ "" → fs p = some (name, data) →
      Message.SetAttachment fs m p =
        .ok { m with attachment := m.attachment ++ [⟨name, data, ""⟩] }) ∧
    (ext p ∉ [".jpg", ".jpeg", ".png", ".pdf", ".doc", ".docx", ".xls", ".xlsx",
        ".ppt", ".pptx", ".zip", ".rar", ".7z", ".txt", ".html", ".htm"] →
      getMimeType p = "application/octet-stream") := by
  constructor
  · intro hlook hp hfs
    simp [Message.SetAttachment, hp, hfs, TypeByExtension, hlook]
  · intro hmem
    simp only [List.mem_cons, List.not_mem_nil, or_false, not_or] at hmem
    obtain ⟨h1, h2, h3, h4, h5, h6, h7, h8, h9, h10, h11, h12, h13, h14, h15, h16⟩ := hmem
    simp [getMimeType, h1, h2, h3, h4, h5, h6, h7, h8, h9, h10, h11, h12, h13, h14, h15, h16]

theorem C6_witness :
    (builtinTypes.lookup (ext "file.xyz") = none ∧ ("file.xyz" : String) ≠ "" ∧
      fsXyz "file.xyz" = some ("file.xyz", [104, 105]) ∧
      ext "file.xyz" ∉ [".jpg", ".jpeg", ".png", ".pdf", ".doc", ".docx", ".xls", ".xlsx",
        ".ppt", ".pptx", ".zip", ".rar", ".7z", ".txt", ".html", ".htm"]) ∧
    Message.SetAttachment fsXyz emptyMessage "file.xyz" =
      .ok { emptyMessage with attachment :=
        emptyMessage.attachment ++ [⟨"file.xyz", [104, 105], ""⟩] } ∧
    getMimeType "file.xyz" = "application/octet-stream" :=
  ⟨⟨by decide, by decide, by decide, by decide⟩,
    (C6_unrecognized_extension "file.xyz" fsXyz emptyMessage "file.xyz" [104, 105]).1
      (by decide) (by decide) (by decide),
    (C6_unrecognized_extension "file.xyz" fsXyz emptyMessage "file.xyz" [104, 105]).2
      (by decide)⟩

/-! ## Claims about `Send` -/

/-- When `Send` reaches the transport, the transmitted bytes are the header
block built around `headContentType` followed by a blank line and the body
buffer. -/
theorem Send_ok_data (parseAddr : String → Option String)
    (messageID dateStr boundary : String) (m : Message) (tc : TransportCall)
    (h : m.Send parseAddr messageID dateStr boundary = .ok tc) :
    ∃ fromStr, parseAddr m.from_ = some fromStr ∧
      tc.data = sendHeader m fromStr messageID dateStr (headContentType m boundary) ++
        "\r\n" ++ sendBody m boundary := by
  unfold Message.Send at h
  by_cases h1 : m.from_ = ""
  · rw [if_pos h1] at h
    exact absurd h (by simp)
  rw [if_neg h1] at h
  by_cases h2 : m.to_ = []
  · rw [if_pos h2] at h
    exact absurd h (by simp)
  rw [if_neg h2] at h
  by_cases h3 : m.subject = ""
  · rw [if_pos h3] at h
    exact absurd h (by simp)
  rw [if_neg h3] at h
  cases hpa : parseAddr m.from_ with
  | none =>
      rw [hpa] at h
      exact absurd h (by simp)
  | some fromStr =>
      rw [hpa] at h
      cases hbad : firstBadAddress parseAddr m.to_ with
      | some t =>
          rw [hbad] at h
          exact absurd h (by simp)
      | none =>
          rw [hbad] at h
          cases hauth : m.Options.plainAuth with
          | error e =>
              rw [hauth] at h
              exact absurd h (by simp)
          | ok auth =>
              rw [hauth] at h
              simp only [Except.ok.injEq] at h
              subst h
              exact ⟨fromStr, rfl, rfl⟩

/-- **C1.** For every Message on which `Send` reaches body construction, the
top-level Content-Type recorded in the header block is
`text/plain; charset=UTF-8` when only plain text is set;
`text/html; charset=UTF-8` when only HTML is set;
`multipart/alternative; boundary="<writer boundary>"` when both are set and
there is no attachment; and `multipart/mixed; boundary="<writer boundary>"`
whenever at least one attachment is present, regardless of which text
bodies are set (the final conjunct ties `headContentType` to the
Content-Type line of the transmitted header block). -/
theorem C1_content_type_selection (m : Message) (boundary : String) :
    (m.plainText ≠ "" → m.html = "" → m.attachment = [] →
      headContentType m boundary = "text/plain; charset=UTF-8") ∧
    (m.plainText = "" → m.html ≠ "" → m.attachment = [] →
      headContentType m boundary = "text/html; charset=UTF-8") ∧
    (m.plainText ≠ "" → m.html ≠ "" → m.attachment = [] →
      headContentType m boundary = "multipart/alternative; boundary=\"" ++ boundary ++ "\"") ∧
    (m.attachment ≠ [] →
      headContentType m boundary = "multipart/mixed; boundary=\"" ++ boundary ++ "\"") ∧
    (∀ parseAddr messageID dateStr tc,
      m.Send parseAddr messageID dateStr boundary = .ok tc →
      ∃ fromStr, parseAddr m.from_ = some fromStr ∧
        tc.data = sendHeader m fromStr messageID dateStr (headContentType m boundary) ++
          "\r\n" ++ sendBody m boundary) := by
  refine ⟨?_, ?_, ?_, ?_, ?_⟩
  · intro hp hh ha
    simp [headContentType, hp, hh, ha]
  · intro hp hh ha
    simp [headContentType, hp, hh, ha]
  · intro hp hh ha
    simp [headContentType, hp, hh, ha]
  · intro ha
    simp [headContentType, ha]
  · intro parseAddr messageID dateStr tc h
    exact Send_ok_data parseAddr messageID dateStr boundary m tc h

/-- Demo address parser: rejects the literal address `bad`, accepts (and
returns verbatim) anything else. -/
def paDemo : String → Option String := fun s => if s = "bad" then none else some s

def msgPlain : Message :=
  { emptyMessage with
    Options := ⟨"smtp.example.com", "25", "u", "p"⟩
    from_ := "a@x.com"
    to_ := ["b@y.com"]
    subject := "Hi"
    plainText := "hello" }

def msgHtml : Message := { msgPlain with plainText := "", html := "<p>hi</p>" }

def msgBoth : Message := { msgPlain with html := "<p>hi</p>" }

def msgAtt : Message :=
  { msgBoth with attachment := [⟨"report.pdf", [37, 80, 68, 70], "application/pdf"⟩] }

theorem C1_witness :
    (msgPlain.plainText ≠ "" ∧ msgPlain.html = "" ∧ msgPlain.attachment = [] ∧
      headContentType msgPlain "B" = "text/plain; charset=UTF-8") ∧
    (msgHtml.plainText = "" ∧ msgHtml.html ≠ "" ∧ msgHtml.attachment = [] ∧
      headContentType msgHtml "B" = "text/html; charset=UTF-8") ∧
    (msgBoth.plainText ≠ "" ∧ msgBoth.html ≠ "" ∧ msgBoth.attachment = [] ∧
      headContentType msgBoth "B" = "multipart/alternative; boundary=\"" ++ "B" ++ "\"") ∧
    (msgAtt.attachment ≠ [] ∧
      headContentType msgAtt "B" = "multipart/mixed; boundary=\"" ++ "B" ++ "\"") :=
  ⟨⟨by decide, rfl, rfl, (C1_content_type_selection msgPlain "B").1 (by decide) rfl rfl⟩,
   ⟨rfl, by decide, rfl, (C1_content_type_selection msgHtml "B").2.1 rfl (by decide) rfl⟩,
   ⟨by decide, by decide, rfl,
     (C1_content_type_selection msgBoth "B").2.2.1 (by decide) (by decide) rfl⟩,
   ⟨by decide, (C1_content_type_selection msgAtt "B").2.2.2.1 (by decide)⟩⟩

/-- `Send` fails on the first `to` entry the parser rejects when all earlier
entries parse. -/
theorem firstBadAddress_append (pa : String → Option String) (good : List String)
    (t : String) (rest : List String) (hgood : ∀ g ∈ good, (pa g).isSome)
    (ht : pa t = none) :
    firstBadAddress pa (good ++ t :: rest) = some t := by
  induction good with
  | nil => simp [firstBadAddress, ht]
  | cons g gs ih =>
      have hg := hgood g (by simp)
      cases hpg : pa g with
      | none => rw [hpg] at hg; simp at hg
      | some v =>
          simp only [List.cons_append, firstBadAddress, hpg]
          simp only [Option.isNone_some, Bool.false_eq_true, if_false]
          exact ih fun x hx => hgood x (by simp [hx])

/-- **C2.** `Send` returns the EmptyFrom error when `from` is empty,
otherwise the EmptyTo error when `to` is empty, otherwise the EmptySubject
error when `subject` is empty; and it returns the parser's error on a
malformed `from` or on the first malformed `to` entry.  In this embedding
an `Except.error` result is returned before the transport is reached: the
`TransportCall` in the `ok` result is the only model of `smtp.SendMail`. -/
theorem C2_send_validation (parseAddr : String → Option String)
    (messageID dateStr boundary : String) (m : Message) :
    (m.from_ = "" →
      m.Send parseAddr messageID dateStr boundary = .error .ErrEmptyFrom) ∧
    (m.from_ ≠ "" → m.to_ = [] →
      m.Send parseAddr messageID dateStr boundary = .error .ErrEmptyTo) ∧
    (m.from_ ≠ "" → m.to_ ≠ [] → m.subject = "" →
      m.Send parseAddr messageID dateStr boundary = .error .ErrEmptySubject) ∧
    (m.from_ ≠ "" → m.to_ ≠ [] → m.subject ≠ "" → parseAddr m.from_ = none →
      m.Send parseAddr messageID dateStr boundary =
        .error (.ParseAddressError m.from_)) ∧
    (∀ fromStr good t rest, m.from_ ≠ "" → m.subject ≠ "" →
      parseAddr m.from_ = some fromStr → m.to_ = good ++ t :: rest →
      (∀ g ∈ good, (parseAddr g).isSome) → parseAddr t = none →
      m.Send parseAddr messageID dateStr boundary = .error (.ParseAddressError t)) := by
  refine ⟨?_, ?_, ?_, ?_, ?_⟩
  · intro h1
    simp [Message.Send, h1]
  · intro h1 h2
    simp [Message.Send, h1, h2]
  · intro h1 h2 h3
    simp [Message.Send, h1, h2, h3]
  · intro h1 h2 h3 h4
    simp [Message.Send, h1, h2, h3, h4]
  · intro fromStr good t rest h1 h3 hpa hto hgood ht
    have h2 : m.to_ ≠ [] := by
      rw [hto]
      simp
    have hbad : firstBadAddress parseAddr m.to_ = some t := by
      rw [hto]
      exact firstBadAddress_append parseAddr good t rest hgood ht
    simp [Message.Send, h1, h2, h3, hpa, hbad]

def msgBadTo : Message := { msgPlain with to_ := ["b@y.com", "bad"] }

theorem C2_witness :
    (emptyMessage.from_ = "" ∧
      emptyMessage.Send paDemo "MID" "DATE" "B" = .error .ErrEmptyFrom) ∧
    (msgBadTo.from_ ≠ "" ∧ msgBadTo.subject ≠ "" ∧ paDemo msgBadTo.from_ = some "a@x.com" ∧
      msgBadTo.to_ = ["b@y.com"] ++ "bad" :: [] ∧ (∀ g ∈ ["b@y.com"], (paDemo g).isSome) ∧
      paDemo "bad" = none ∧
      msgBadTo.Send paDemo "MID" "DATE" "B" = .error (.ParseAddressError "bad")) :=
  ⟨⟨rfl, (C2_send_validation paDemo "MID" "DATE" "B" emptyMessage).1 rfl⟩,
   ⟨by decide, by decide, by decide, rfl, by decide, by decide,
     (C2_send_validation paDemo "MID" "DATE" "B" msgBadTo).2.2.2.2 "a@x.com" ["b@y.com"]
       "bad" [] (by decide) (by decide) (by decide) rfl (by decide) (by decide)⟩⟩

/-- **C10.** The composer builds the body through a multipart writer
unconditionally: for every Message with only plain text set (no HTML, no
attachments), the body consists of the dash-boundary delimiter line, the
part header line `Content-Type: text/plain; charset=UTF-8`, a blank line,
the payload, and the closing boundary delimiter — even though the
top-level header declares `Content-Type: text/plain; charset=UTF-8` with
no boundary parameter. -/
theorem C10_plain_only_multipart_body (m : Message) (boundary : String)
    (hp : m.plainText ≠ "") (hh : m.html = "") (ha : m.attachment = []) :
    sendBody m boundary =
      "--" ++ boundary ++ "\r\n" ++ "Content-Type" ++ ": " ++
        "text/plain; charset=UTF-8" ++ "\r\n" ++ "\r\n" ++ m.plainText ++
        "\r\n--" ++ boundary ++ "--\r\n" ∧
    headContentType m boundary = "text/plain; charset=UTF-8" := by
  constructor
  · rw [sendBody, if_pos hp, if_neg (by simp [hh]), ha]
    simp only [attachmentParts, createPart, closingBoundary, String.join, List.map,
      List.foldl, if_true]
    simp [String.append_assoc, String.append_empty, String.empty_append]
  · simp [headContentType, hp, hh, ha]

theorem C10_witness :
    (msgPlain.plainText ≠ "" ∧ msgPlain.html = "" ∧ msgPlain.attachment = []) ∧
    sendBody msgPlain "B" =
      "--" ++ "B" ++ "\r\n" ++ "Content-Type" ++ ": " ++
        "text/plain; charset=UTF-8" ++ "\r\n" ++ "\r\n" ++ msgPlain.plainText ++
        "\r\n--" ++ "B" ++ "--\r\n" ∧
    headContentType msgPlain "B" = "text/plain; charset=UTF-8" :=
  ⟨⟨by decide, rfl, rfl⟩,
    (C10_plain_only_multipart_body msgPlain "B" (by decide) rfl rfl).1,
    (C10_plain_only_multipart_body msgPlain "B" (by decide) rfl rfl).2⟩
